import Mathlib

/-!
# Formal model of the systest framework core

A shallow embedding, in Lean 4, of the configuration resolver, suite
manager and multi-area runner of the `systest` command-line test-suite
runner (Python sources under `src/systest/`).  Strings from the Python
code are modelled as `List Char`; Python dictionaries as association
lists with unique keys maintained by construction; fallible code returns
`Except`.  Each definition carries a reference to the Python function it
embeds.
-/

namespace Systest

/-! ## Basic string helpers (Python `str` operations over `List Char`) -/

/-- Python `str.strip()` restricted to ASCII whitespace: drops leading and
trailing whitespace characters. -/
def strip (s : List Char) : List Char :=
  ((s.dropWhile Char.isWhitespace).reverse.dropWhile Char.isWhitespace).reverse

/-- Python `str.lower()` (ASCII model). -/
def lower (s : List Char) : List Char :=
  s.map Char.toLower

/-- Python `str.isdigit()` restricted to ASCII digits: nonempty and all
characters are decimal digits. -/
def isdigit (s : List Char) : Bool :=
  !s.isEmpty && s.all Char.isDigit

/-- Numeric value of a digit string (Python `int(s)` for a digit string). -/
def digitsToNat (s : List Char) : Nat :=
  s.foldl (fun acc c => acc * 10 + (c.toNat - '0'.toNat)) 0

/-- `splitFirst sep s` mirrors Python `s.split(sep, 1)`: `none` when `sep`
does not occur in `s`, otherwise the parts before and after the first
occurrence of `sep`. -/
def splitFirst (sep : Char) : List Char → Option (List Char × List Char)
  | [] => none
  | c :: cs =>
    if c = sep then some ([], cs)
    else
      match splitFirst sep cs with
      | none => none
      | some (a, b) => some (c :: a, b)

/-- `splitLast sep s`: `none` when `sep` does not occur in `s`, otherwise
the parts before and after the LAST occurrence of `sep`.  Used only to
state the specification's reading of the line-suffix split. -/
def splitLast (sep : Char) (s : List Char) : Option (List Char × List Char) :=
  match splitFirst sep s.reverse with
  | none => none
  | some (a, b) => some (b.reverse, a.reverse)

/-! ## Path-specifier line-suffix parsing

Embeds the head of `iter_make_paths` (src/systest/systest_behave/runner.py,
lines 32-42):

```
path_str, *line_part = path.split(":", 1)
if line_part:
    if not line_part[0].isdigit() or int(line_part[0]) < 0:
        raise ConfigError(...)
    line_number = int(line_part[0])
else:
    line_number = None
```
-/

/-- Splits a path specifier from its optional line-number suffix exactly as
`iter_make_paths` does: split at the FIRST `:` (Python `split(":", 1)`);
when a suffix part exists it must be a digit string, otherwise a
`ConfigError` is raised.  (`int(line_part[0]) < 0` in the source is
unreachable, since `isdigit` already rejects a sign.) -/
def parseLineSuffix (path : List Char) : Except String (List Char × Option Nat) :=
  match splitFirst ':' path with
  | none => .ok (path, none)
  | some (path_str, line_part) =>
    if isdigit line_part ∧ ¬ digitsToNat line_part < 0 then
      .ok (path_str, some (digitsToNat line_part))
    else
      .error ("Invalid format for file path and line number: " ++ String.mk path)

/-- The specification's reading of the same step: split at the LAST `:`
only when the trailing segment is a non-negative integer, otherwise a
fatal error.  Stated only to compare with `parseLineSuffix`. -/
def parseLineSuffixSpec (path : List Char) : Except String (List Char × Option Nat) :=
  match splitLast ':' path with
  | none => .ok (path, none)
  | some (path_str, line_part) =>
    if isdigit line_part then
      .ok (path_str, some (digitsToNat line_part))
    else
      .error ("Invalid format for file path and line number: " ++ String.mk path)

/-! ## Python dictionaries as association lists

A Python `dict` with string keys.  `setKey` is `d[k] = v` (replace the
existing binding, else append), `dictUpdate` is `d.update(d2)`, `getVal`
is `d.get(k)`.  Key uniqueness is maintained by construction, so lookup
semantics coincide with Python's. -/

/-- A string-keyed dictionary. -/
abbrev Dict (α : Type) := List (List Char × α)

/-- `d[k] = v`: replace the binding of `k` if present, else append it. -/
def setKey (d : Dict α) (k : List Char) (v : α) : Dict α :=
  match d with
  | [] => [(k, v)]
  | (k', v') :: rest =>
    if k' = k then (k', v) :: rest else (k', v') :: setKey rest k v

/-- `d.get(k)`. -/
def getVal (d : Dict α) (k : List Char) : Option α :=
  match d with
  | [] => none
  | (k', v') :: rest => if k' = k then some v' else getVal rest k

/-- `d.update(d2)`: key-for-key overwrite, later entries of `d2` last. -/
def dictUpdate (d d2 : Dict α) : Dict α :=
  d2.foldl (fun acc kv => setKey acc kv.1 kv.2) d

/-! ## build_environment_values

Embeds `build_environment_values`
(src/systest/systest_behave/configuration.py, lines 38-97).  The four raw
sources are passed in explicitly: the OS environment (`os.environ`), the
user home config file (`~/.systest`), the project `.env` file, and the
config file named on the CLI.  Each file source is `none` when the file
does not exist, otherwise `some` of the key-value pairs `dotenv_values`
read from it.  The CLI file is `none` when `--config` was not given; a
given-but-missing CLI file raises `FileNotFoundError`. -/

/-- Whether the CLI named a config file, and whether it exists on disk. -/
inductive CliFile where
  /-- No `--config` argument was supplied. -/
  | absent : CliFile
  /-- `--config` named a file that does not exist. -/
  | missing : CliFile
  /-- `--config` named an existing file with these `dotenv` values. -/
  | present (values : Dict (List Char)) : CliFile

/-- Builds the raw (string-level) configuration dictionary from the four
sources in ascending precedence, each later source overwriting earlier
ones key-for-key.  The project `.env` file is consulted only when running
from a source checkout (`run_from_source()`). -/
def build_environment_values (osEnviron : Dict (List Char))
    (userConfig : Option (Dict (List Char)))
    (runFromSource : Bool) (projectConfig : Option (Dict (List Char)))
    (cliFile : CliFile) : Except String (Dict (List Char)) :=
  -- OS Environment Variables (Priority 1)
  let env_values := osEnviron
  -- User Home Config (~/.systest) (Priority 2)
  let env_values :=
    match userConfig with
    | none => env_values
    | some loaded => dictUpdate env_values loaded
  -- Project `.env` file (Priority 3 - only loaded if running from source)
  let env_values :=
    if runFromSource then
      match projectConfig with
      | none => env_values
      | some loaded => dictUpdate env_values loaded
    else env_values
  -- Specified config file (CLI argument) (Priority 4)
  match cliFile with
  | .absent => .ok env_values
  | .missing => .error "The CLI specified config file not found."
  | .present loaded => .ok (dictUpdate env_values loaded)

/-! ## load_environment_settings

Embeds `load_environment_settings`
(src/systest/systest_behave/configuration.py, lines 100-161) together
with the constants `ENV_EXCLUDED_OPTIONS` and `ENV_SEQUENCE_OPTIONS`
(src/systest/constants.py, lines 58-72). -/

/-- `ENV_EXCLUDED_OPTIONS` (src/systest/constants.py, lines 61-72). -/
def ENV_EXCLUDED_OPTIONS : List (List Char) :=
  ["suite".toList, "create_suite_name".toList, "config".toList, "help".toList,
   "tags_help".toList, "lang_list".toList, "lang_help".toList,
   "verbose".toList, "version".toList]

/-- `ENV_SEQUENCE_OPTIONS` (src/systest/constants.py, line 58). -/
def ENV_SEQUENCE_OPTIONS : List (List Char) :=
  ["name".toList, "tags".toList, "format".toList, "outfiles".toList,
   "userdata_defines".toList, "paths".toList]

/-- A typed configuration value as produced by the environment-variable
parser and by CLI parsing: string, boolean, integer, list of strings, or
list of `(key, value)` pairs (userdata defines). -/
inductive ConfigValue where
  /-- A plain (trimmed) string value. -/
  | str (s : List Char) : ConfigValue
  /-- A boolean value, from literal `"true"`/`"false"`. -/
  | bool (b : Bool) : ConfigValue
  /-- An integer value, from a purely numeric string. -/
  | int (n : Nat) : ConfigValue
  /-- An ordered list of strings (sequence options). -/
  | seq (xs : List (List Char)) : ConfigValue
  /-- A list of `(key, value)` userdata pairs. -/
  | kvs (xs : List (List Char × Option (List Char))) : ConfigValue
  deriving DecidableEq

/-- Simple model of `shlex.split` for values without quotes: split on runs
of whitespace.  (The source uses `shlex.split`, whose quote handling is
irrelevant to the claims proved here; all concrete inputs used below are
quote-free, where the two agree.) -/
def shlexSplitSimple (s : List Char) : List (List Char) :=
  (s.splitOnP Char.isWhitespace).filter (fun w => ¬ w.isEmpty)

/-- `behave.userdata.parse_user_define` on an element without quotes:
split `name=value` at the first `=`; an element without `=` yields the
name with no value (behave pairs it with `"true"` downstream; the claims
here never reach that case). -/
def parse_user_define (element : List Char) : List Char × Option (List Char) :=
  match splitFirst '=' element with
  | none => (strip element, none)
  | some (name, value) => (strip name, some (strip value))

/-- Parses one `SYSTEST_`-prefixed raw value exactly as the body of the
loop in `load_environment_settings` does (lines 142-154): literal
`true`/`false` (case-insensitive) to boolean, purely numeric to integer,
sequence-option names to a shell-tokenized list (`userdata_defines`
further split on `=`), anything else left as the trimmed string. -/
def parseEnvValue (config_name : List Char) (env_parsed_value : List Char) : ConfigValue :=
  let env_value_lowered := lower env_parsed_value
  if env_value_lowered = "true".toList ∨ env_value_lowered = "false".toList then
    .bool (env_value_lowered = "true".toList)
  else if isdigit env_parsed_value then
    .int (digitsToNat env_parsed_value)
  else if config_name ∈ ENV_SEQUENCE_OPTIONS then
    let elems := shlexSplitSimple env_parsed_value
    if config_name = "userdata_defines".toList then
      .kvs (elems.map parse_user_define)
    else
      .seq elems
  else
    .str env_parsed_value

/-- Processes one environment entry as one iteration of the loop in
`load_environment_settings` (lines 120-160): keys without the
case-insensitive `systest_` prefix are ignored; an empty name after the
prefix is skipped; an excluded name raises `ConfigError`; an empty or
whitespace value is skipped; otherwise the parsed value is assigned. -/
def applyEnvEntry (defaults : Dict ConfigValue) (env_var env_value : List Char) :
    Except String (Dict ConfigValue) :=
  let env_var_lowered := lower env_var
  if ¬ ("systest_".toList).isPrefixOf env_var_lowered then .ok defaults
  else
    let config_name := env_var_lowered.drop 8
    if config_name = [] then .ok defaults
    else if config_name ∈ ENV_EXCLUDED_OPTIONS then
      .error ("Setting cannot be specified as environment var: " ++ String.mk config_name)
    else
      let env_parsed_value := strip env_value
      if env_parsed_value = [] then .ok defaults
      else .ok (setKey defaults config_name (parseEnvValue config_name env_parsed_value))

/-- Embeds `load_environment_settings` (lines 100-161): builds the raw
environment dictionary via `build_environment_values` and folds
`applyEnvEntry` over its entries, updating `defaults`. -/
def load_environment_settings (defaults : Dict ConfigValue)
    (osEnviron : Dict (List Char)) (userConfig : Option (Dict (List Char)))
    (runFromSource : Bool) (projectConfig : Option (Dict (List Char)))
    (cliFile : CliFile) : Except String (Dict ConfigValue) :=
  match build_environment_values osEnviron userConfig runFromSource projectConfig cliFile with
  | .error e => .error e
  | .ok env_values =>
    env_values.foldlM (fun d kv => applyEnvEntry d kv.1 kv.2) defaults

/-! ## Filesystem model and feature-location collection

A filesystem snapshot for the runner: absolute paths are lists of path
components (`List String`); `dirs` and `files` list the existing
directories and files.  Embeds `resolve_feature` and
`SystestRunner.collect_feature_locations`
(src/systest/systest_behave/runner.py, lines 103-124 and 186-257). -/

/-- A snapshot of the relevant part of the filesystem.  Paths are absolute,
given as their component lists. -/
structure FS where
  /-- Existing directories. -/
  dirs : List (List String)
  /-- Existing files. -/
  files : List (List String)
  deriving DecidableEq

/-- `Path.is_dir()`. -/
def FS.isDir (fs : FS) (p : List String) : Bool := p ∈ fs.dirs

/-- `Path.is_file()`. -/
def FS.isFile (fs : FS) (p : List String) : Bool := p ∈ fs.files

/-- `Path.exists()`. -/
def FS.pathExists (fs : FS) (p : List String) : Bool := fs.isDir p || fs.isFile p

/-- `p.relative_to(base)`: `some` of the remaining components when `base`
is a LEXICAL (component-wise) ancestor-or-self of `p`, `none` when the
operation raises `ValueError`.  `Path.relative_to` is purely lexical: it
never resolves `..` components, so a path such as
`features/../other/x.feature` IS relative to `features` (with first
component `..`). -/
def relativeTo (base p : List String) : Option (List String) :=
  if base.isPrefixOf p then some (p.drop base.length) else none

/-- Last path component, or `""` for the root. -/
def lastComponent (p : List String) : String := p.getLast!

/-- The path the operating system actually consults for a raw path that
may contain `..` components: `stat`-level resolution folds each `..`
into its parent.  The runner builds paths with `Path.absolute()`, which
does NOT normalize, so raw paths keep their `..` components while
`exists()`/`is_dir()`/`is_file()`/`glob()` act on the normalized path. -/
def normalizePath (p : List String) : List String :=
  p.foldl (fun acc c => if c = ".." then acc.dropLast else acc ++ [c]) []

/-- `str.endswith(pat)`, over the character lists (kernel-reducible, so
concrete collection runs evaluate). -/
def endsWithStr (s pat : String) : Bool := pat.toList.isSuffixOf s.toList

/-- Embeds `resolve_feature` (runner.py, lines 103-124): a directory is
expanded to its immediate `*.feature` files (each inheriting the line
number); a `.feature` file is kept as-is; anything else yields nothing.
The `is_dir()`/`is_file()`/`glob()` calls consult the filesystem, i.e.
the normalized path, while the `FileLocation` kept is built from the raw
path string (`str(path)`), `..` components included. -/
def resolve_feature (fs : FS) (path : List String) (line_number : Option Nat) :
    List (List String × Option Nat) :=
  let real := normalizePath path
  if fs.isDir real then
    (fs.files.filter (fun f =>
        f.length = real.length + 1 && real.isPrefixOf f &&
        endsWithStr (lastComponent f) ".feature")).map
      (fun f => (path ++ [lastComponent f], line_number))
  else if fs.isFile real && endsWithStr (lastComponent path) ".feature" then
    [(path, line_number)]
  else
    []

/-- A feature-area grouping: area name to deduplicated file locations, in
first-encounter order (`grouped_feature_files` in the source; the final
per-group sort of the source is an intra-group reordering that none of
the claims below concern). -/
abbrev Groups := List (String × List (List String × Option Nat))

/-- `grouped.setdefault(area, set()).update(files)`: extend (or create)
the group of `area` with `locs`, skipping locations already present. -/
def addToGroup (groups : Groups) (area : String) (locs : List (List String × Option Nat)) :
    Groups :=
  match groups with
  | [] => [(area, locs.foldl (fun acc l => if l ∈ acc then acc else acc ++ [l]) [])]
  | (a, ls) :: rest =>
    if a = area then
      (a, locs.foldl (fun acc l => if l ∈ acc then acc else acc ++ [l]) ls) :: rest
    else
      (a, ls) :: addToGroup rest area locs

/-- One iteration of the loop in `collect_feature_locations` (runner.py,
lines 206-254) for an already-resolved location: a non-existing path is
skipped (`exists()` consults the filesystem, so it resolves `..`
components); a path that is not LEXICALLY under the features root
(`relative_to` raising `ValueError`) raises `ConfigError` — but
`relative_to` never resolves `..`, so a traversal path such as
`features/../other/x.feature` passes the check with feature area `..`;
the features root itself is skipped; otherwise the surviving
(non-excluded) feature files are added to the group of the first
component under the features root. -/
def collectStep (fs : FS) (features_path : List String)
    (exclude : List String × Option Nat → Bool) (groups : Groups)
    (loc : List String × Option Nat) : Except String Groups :=
  let (resolved_path, line_number) := loc
  if ¬ fs.pathExists (normalizePath resolved_path) then .ok groups
  else
    match relativeTo features_path resolved_path with
    | none =>
      .error ("Path is not inside the Test Suite's feature directory: " ++
        String.intercalate "/" resolved_path)
    | some relative_path =>
      match relative_path with
      | [] => .ok groups
      | feature_area_folder :: _ =>
        let resolved_feature_files :=
          (resolve_feature fs resolved_path line_number).filter (fun l => ¬ exclude l)
        if resolved_feature_files = [] then .ok groups
        else .ok (addToGroup groups feature_area_folder resolved_feature_files)

/-- Embeds the loop of `SystestRunner.collect_feature_locations` (runner.py,
lines 206-257) over a list of already-resolved `(path, line)` locations
(the output of `iter_paths`). -/
def collect_feature_locations (fs : FS) (features_path : List String)
    (exclude : List String × Option Nat → Bool)
    (resolved : List (List String × Option Nat)) : Except String Groups :=
  resolved.foldlM (collectStep fs features_path exclude) []

/-! ## The multi-area run loop

Embeds `SystestRunner.run`, `SystestRunner.run_feature_area` and
`SystestRunner.finish` (runner.py, lines 277-349).  The underlying BDD
engine's per-area outcome is abstracted into two functions: `areaResult`
(the value `run_model` returns for that area, `0` = success) and
`areaAborts` (whether the engine sets `self.aborted` while running that
area).  The configuration is reduced to the fields the runner touches or
that frame conditions are stated about. -/

/-- The configuration fields relevant to the run loop. -/
structure RunnerConfig where
  /-- `config.base_dir`, re-pointed at each feature area. -/
  base_dir : String
  /-- `config.paths`, re-pointed at each feature area. -/
  paths : List String
  /-- `config.stop`: stop at first failure. -/
  stop : Bool
  /-- A stand-in for every other configuration field, used to state that
  the run loop re-assigns nothing besides `base_dir` and `paths`. -/
  other : String
  deriving DecidableEq

/-- Joins the features root and an area name, as
`(self.config.suite_features_path / name).absolute()` does. -/
def featureAreaDir (suite_features_path : String) (name : String) : String :=
  suite_features_path ++ "/" ++ name

/-- Embeds `SystestRunner.run_feature_area` (runner.py, lines 324-349):
re-points `base_dir` and `paths` at the area, (re)loads hooks and steps
(no configuration effect), and returns the engine's result for the area. -/
def run_feature_area (suite_features_path : String) (areaResult : String → Nat)
    (cfg : RunnerConfig) (name : String) : RunnerConfig × Nat :=
  let base_dir := featureAreaDir suite_features_path name
  ({ cfg with base_dir := base_dir, paths := [base_dir] }, areaResult name)

/-- The loop of `SystestRunner.run` (runner.py, lines 309-318), also
recording the list of areas actually executed.  After each area: a
positive result marks the run failed and, when `stop` is set, breaks; an
abort from the engine breaks regardless. -/
def runLoop (suite_features_path : String) (areaResult : String → Nat)
    (areaAborts : String → Bool) :
    List String → RunnerConfig → List String → Nat → RunnerConfig × List String × Nat
  | [], cfg, executed, failed => (cfg, executed, failed)
  | name :: rest, cfg, executed, failed =>
    let (cfg', result) := run_feature_area suite_features_path areaResult cfg name
    let executed' := executed ++ [name]
    if result > 0 then
      if cfg'.stop then (cfg', executed', 1)
      else if areaAborts name then (cfg', executed', 1)
      else runLoop suite_features_path areaResult areaAborts rest cfg' executed' 1
    else if areaAborts name then (cfg', executed', failed)
    else runLoop suite_features_path areaResult areaAborts rest cfg' executed' failed

/-- The runner state after a completed run. -/
structure RunOutcome where
  /-- The configuration after `finish()`. -/
  config : RunnerConfig
  /-- The feature areas executed, in order. -/
  executed : List String
  /-- The value `run()` returns (`0` = success, `1` = failure). -/
  failed : Nat
  deriving DecidableEq

/-- Embeds `SystestRunner.run` together with `setup` and `finish`
(runner.py, lines 259-322): captures `original_paths`, fails when no
feature areas were found, iterates the areas, and on completion restores
`config.paths` to the captured value (`finish`, line 291 — `base_dir` is
not touched by `finish`). -/
def run (suite_features_path : String) (areaResult : String → Nat)
    (areaAborts : String → Bool) (feature_locations : List String)
    (cfg : RunnerConfig) : Except String RunOutcome :=
  -- setup
  let original_paths := cfg.paths
  if feature_locations = [] then .error "No feature files found."
  else
    let (cfg', executed, failed) :=
      runLoop suite_features_path areaResult areaAborts feature_locations cfg [] 0
    -- finish: restore the original input paths
    .ok ⟨{ cfg' with paths := original_paths }, executed, failed⟩

/-! ## Suite configuration file

Embeds `SuiteConfig` and `parse_suite_conf` (src/systest/suite_manager.py,
lines 30-61).  The `dotenv` file reading is modelled line by line for
plain (un-exported) `key=value` lines: a line is stripped, skipped when
empty or starting with `#`, and otherwise split at the first `=` into a
stripped key and a stripped value; a value wrapped in a matching pair of
single or double quotes loses the quotes; a line without `=` yields the
key with no value.  Two python-dotenv behaviours are not modelled and are
excluded by hypothesis wherever a theorem below quantifies over values:
escape-sequence processing inside double-quoted values (theorems only
admit unquoted values) and `${VAR}` interpolation (theorems only admit
values without `$`). -/

/-- The double-quote character (ASCII 34). -/
def doubleQuoteChar : Char := Char.ofNat 34

/-- The single-quote character (ASCII 39). -/
def singleQuoteChar : Char := Char.ofNat 39

/-- python-dotenv's unquoting of a stripped value: a value surrounded by
a matching pair of single or double quotes loses them; anything else is
kept as-is. -/
def unquote (v : List Char) : List Char :=
  match v with
  | [] => []
  | c :: rest =>
    if (c = doubleQuoteChar ∨ c = singleQuoteChar) ∧ rest ≠ [] ∧
        rest.getLast? = some c then
      rest.dropLast
    else c :: rest

/-- One line as read by `dotenv_values`. -/
def dotenvLine (line : List Char) : Option (List Char × Option (List Char)) :=
  let s := strip line
  if s = [] then none
  else if s.head? = some '#' then none
  else
    match splitFirst '=' s with
    | none => some (s, none)
    | some (k, v) => some (strip k, some (unquote (strip v)))

/-- `dotenv_values` over the lines of a file: later lines overwrite
earlier bindings of the same key. -/
def dotenv_values (lines : List (List Char)) : Dict (Option (List Char)) :=
  lines.foldl
    (fun d line =>
      match dotenvLine line with
      | none => d
      | some (k, v) => setKey d k v)
    []

/-- `SUITE_FEATURES_FOLDER` (src/systest/constants.py, line 83). -/
def SUITE_FEATURES_FOLDER : List Char := "features".toList

/-- `SUITE_SUPPORT_FOLDER` (src/systest/constants.py, line 86). -/
def SUITE_SUPPORT_FOLDER : List Char := "support".toList

/-- `SuiteConfig` (src/systest/suite_manager.py, lines 30-38). -/
structure SuiteConfig where
  /-- Framework version declared in the suite configuration. -/
  framework_version : List Char
  /-- Directory name that contains feature area folders. -/
  features_folder : List Char
  /-- Directory name that contains shared support code. -/
  support_folder : List Char
  deriving DecidableEq

/-- Embeds `parse_suite_conf` (src/systest/suite_manager.py, lines 41-61):
starts from the three framework defaults (`version` stands for the
`VERSION` constant), overwrites them with every truthy value read from
the file (`fileLines` is `none` when the file is missing), and builds the
`SuiteConfig`.  `SuiteConfig(**config)` raises `TypeError` when the file
introduced a key other than the three recognized ones; that failure is
the `.error` case. -/
def parse_suite_conf (version : List Char) (fileLines : Option (List (List Char))) :
    Except String SuiteConfig :=
  let config : Dict (List Char) :=
    [("framework_version".toList, version),
     ("features_folder".toList, SUITE_FEATURES_FOLDER),
     ("support_folder".toList, SUITE_SUPPORT_FOLDER)]
  let config :=
    match fileLines with
    | none => config
    | some lines =>
      (dotenv_values lines).foldl
        (fun c kv =>
          match kv.2 with
          | some v => if v ≠ [] then setKey c kv.1 v else c
          | none => c)
        config
  if config.all (fun kv =>
      kv.1 = "framework_version".toList ∨ kv.1 = "features_folder".toList ∨
      kv.1 = "support_folder".toList) then
    .ok
      { framework_version := (getVal config "framework_version".toList).getD version,
        features_folder := (getVal config "features_folder".toList).getD SUITE_FEATURES_FOLDER,
        support_folder := (getVal config "support_folder".toList).getD SUITE_SUPPORT_FOLDER }
  else
    .error "TypeError: SuiteConfig got an unexpected keyword argument"

/-- Serialization of a `SuiteConfig` as the `key=value` lines of a suite
config file; the inverse direction of `parse_suite_conf` for the
round-trip property.  (The source never serializes a `SuiteConfig`; this
is the obvious `key=value` emitter the round-trip in the specification
quantifies over.) -/
def serializeSuiteConf (cfg : SuiteConfig) : List (List Char) :=
  ["framework_version".toList ++ '=' :: cfg.framework_version,
   "features_folder".toList ++ '=' :: cfg.features_folder,
   "support_folder".toList ++ '=' :: cfg.support_folder]

/-! ## Requirements satisfaction and dependency installation

Embeds `_is_empty_or_only_comments`, `_parse_requirement_file`,
`_is_requirements_satisfied` and `install_suite_dependencies`
(src/systest/suite_manager.py, lines 181-317).  A parsed requirement
carries its canonical data: the distribution name, the evaluated truth
value of its environment marker when one is present, and the version
predicate of its specifier when the specifier set is nonempty
(`req.specifier.contains(version, prereleases=True)`). -/

/-- A parsed `packaging.requirements.Requirement`. -/
structure Requirement where
  /-- `req.name`. -/
  name : List Char
  /-- `some b` when the requirement has an environment marker and
  `req.marker.evaluate()` returns `b`; `none` when there is no marker. -/
  marker : Option Bool
  /-- `some contains` when the requirement has a nonempty specifier set,
  with `contains v = req.specifier.contains(v, prereleases=True)`;
  `none` when the specifier set is empty (falsy in Python). -/
  specContains : Option (List Char → Bool)

/-- One line of a requirements file after `line.strip()`: blank, a
`#`-comment, or a requirement specifier (already parsed). -/
inductive RLine where
  /-- A line that is empty after stripping. -/
  | blank : RLine
  /-- A stripped line starting with `#`. -/
  | comment : RLine
  /-- A requirement line, as parsed by `Requirement(line)`. -/
  | req (r : Requirement) : RLine

/-- Embeds `_is_empty_or_only_comments` (suite_manager.py, lines 181-195). -/
def _is_empty_or_only_comments (lines : List RLine) : Bool :=
  lines.all fun l =>
    match l with
    | .req _ => false
    | _ => true

/-- Embeds `_parse_requirement_file` (suite_manager.py, lines 214-227):
the requirement entries of the non-blank, non-comment lines. -/
def _parse_requirement_file (lines : List RLine) : List Requirement :=
  lines.filterMap fun l =>
    match l with
    | .req r => some r
    | _ => none

/-- `packaging.utils.canonicalize_name`, modelled as lower-casing.  (The
collapsing of `[-_.]` runs to `-` is not modelled; no claim below
involves names where the two differ.) -/
def canonicalizeName (name : List Char) : List Char := lower name

/-- The `available_versions` dictionary built at the top of
`_is_requirements_satisfied` (suite_manager.py, lines 240-244) from the
`(name, version)` pairs `_parse_packages` yields: first occurrence of a
canonical name wins. -/
def buildAvailableVersions (pkgs : List (List Char × List Char)) : Dict (List Char) :=
  pkgs.foldl
    (fun d nv =>
      let key := canonicalizeName nv.1
      match getVal d key with
      | some _ => d
      | none => setKey d key nv.2)
    []

/-- The requirement loop of `_is_requirements_satisfied` (suite_manager.py,
lines 246-257): a requirement whose marker evaluates false returns
`False`; a name missing from `available_versions` returns `False`; a
version outside the specifier returns `False`; otherwise the loop
continues, and an exhausted loop returns `True`. -/
def requirementsLoop (available_versions : Dict (List Char)) : List Requirement → Bool
  | [] => true
  | req :: rest =>
    if req.marker = some false then false
    else
      match getVal available_versions (canonicalizeName req.name) with
      | none => false
      | some version =>
        match req.specContains with
        | some contains => if ¬ contains version then false else requirementsLoop available_versions rest
        | none => requirementsLoop available_versions rest

/-- Embeds `_is_requirements_satisfied` (suite_manager.py, lines 230-257). -/
def _is_requirements_satisfied (lines : List RLine) (pkgs : List (List Char × List Char)) :
    Bool :=
  requirementsLoop (buildAvailableVersions pkgs) (_parse_requirement_file lines)

/-- The process-wide state `install_suite_dependencies` mutates: the
module search path (`sys.path`) and a count of package-installer
subprocess invocations (`_call_pip`). -/
structure ProcState where
  /-- `sys.path`. -/
  sys_path : List (List Char)
  /-- Number of `pip install` subprocess invocations so far. -/
  pipInstallCalls : Nat
  deriving DecidableEq

/-- Embeds `install_suite_dependencies` (suite_manager.py, lines 260-317).
`requirements_file` is `none` when no requirements file was given or the
given path is not a file (the source's first two skip branches), and
`some lines` otherwise; `pkgs` is what `_parse_packages` yields.  The
skip branches return with no state change; otherwise pip is invoked when
the requirements are unsatisfied, and afterwards the lib directory is
added to the module search path when absent (`site.addsitedir` plus the
explicit `sys.path.insert`; net effect: membership). -/
def install_suite_dependencies (lib_path : List Char)
    (requirements_file : Option (List RLine)) (pkgs : List (List Char × List Char))
    (s : ProcState) : ProcState :=
  match requirements_file with
  | none => s
  | some lines =>
    if _is_empty_or_only_comments lines then s
    else
      let s :=
        if _is_requirements_satisfied lines pkgs then s
        else { s with pipInstallCalls := s.pipInstallCalls + 1 }
      if lib_path ∈ s.sys_path then s else { s with sys_path := lib_path :: s.sys_path }

/-! ## CLI flag merge (final configuration step)

Modelled from the spec: the final merge of CLI flag values over the
environment/config-derived defaults is performed by the external BDD
engine's configuration constructor and `argparse`
(`behave.configuration.Configuration.__init__`, reached through
`Configuration.__init__` step 4, src/systest/systest_behave/
configuration.py line 322) — code that is not part of this repository's
sources.  A scalar option supplied on the CLI overrides the default; a
sequence option follows the parser's append-action semantics: the
occurrences given on the CLI are appended to the default list coming
from the environment/config sources.  The append direction is pinned by
this repository's own integration test
(tests/integration/configuration.py, `test_configuration_priority`,
which expects `env_parsed_value + att_value`). -/

/-- Modelled from the spec: final value of a scalar (string/bool/int)
setting — the CLI value when one was supplied, else the default. -/
def applyCliScalar (defaultValue : Option ConfigValue) (cliValue : Option ConfigValue) :
    Option ConfigValue :=
  match cliValue with
  | some v => some v
  | none => defaultValue

/-- Modelled from the spec: final value of a sequence setting — the
CLI-supplied occurrences appended to the default list (append-action
semantics of the engine's parser). -/
def applyCliSeq (defaultValue : Option ConfigValue) (cliItems : List (List Char)) :
    ConfigValue :=
  let base :=
    match defaultValue with
    | some (.seq xs) => xs
    | _ => []
  .seq (base ++ cliItems)

/-- End-to-end effective value of one scalar setting `name`: raw source
merge (`build_environment_values`), typed environment parsing
(`load_environment_settings`), then the CLI merge. -/
def effectiveScalar (defaults : Dict ConfigValue) (osEnviron : Dict (List Char))
    (userConfig : Option (Dict (List Char))) (runFromSource : Bool)
    (projectConfig : Option (Dict (List Char))) (cliFile : CliFile)
    (name : List Char) (cliValue : Option ConfigValue) :
    Except String (Option ConfigValue) :=
  (load_environment_settings defaults osEnviron userConfig runFromSource projectConfig
    cliFile).map fun d => applyCliScalar (getVal d name) cliValue

/-- End-to-end effective value of one sequence setting `name`: raw source
merge, typed environment parsing, then the CLI append merge. -/
def effectiveSeq (defaults : Dict ConfigValue) (osEnviron : Dict (List Char))
    (userConfig : Option (Dict (List Char))) (runFromSource : Bool)
    (projectConfig : Option (Dict (List Char))) (cliFile : CliFile)
    (name : List Char) (cliItems : List (List Char)) :
    Except String ConfigValue :=
  (load_environment_settings defaults osEnviron userConfig runFromSource projectConfig
    cliFile).map fun d => applyCliSeq (getVal d name) cliItems

/-! # Supporting lemmas -/

theorem splitFirst_append {sep : Char} {pre : List Char} (h : sep ∉ pre) (suf : List Char) :
    splitFirst sep (pre ++ sep :: suf) = some (pre, suf) := by
  induction pre with
  | nil => simp [splitFirst]
  | cons c cs ih =>
    have hc : c ≠ sep := fun hc => h (hc ▸ List.mem_cons_self c cs)
    have hcs : sep ∉ cs := fun hm => h (List.mem_cons_of_mem c hm)
    simp [splitFirst, hc, ih hcs]

theorem getVal_setKey_self (d : Dict α) (k : List Char) (v : α) :
    getVal (setKey d k v) k = some v := by
  induction d with
  | nil => simp [setKey, getVal]
  | cons kv rest ih =>
    by_cases h : kv.1 = k
    · simp [setKey, getVal, h]
    · simp [setKey, getVal, h, ih]

theorem getVal_setKey_ne {k k' : List Char} (h : k' ≠ k) (d : Dict α) (v : α) :
    getVal (setKey d k' v) k = getVal d k := by
  induction d with
  | nil => simp [setKey, getVal, h]
  | cons kv rest ih =>
    have h3 : k ≠ k' := fun he => h he.symm
    by_cases h1 : kv.1 = k'
    · have hk : kv.1 ≠ k := by rw [h1]; exact h
      simp [setKey, getVal, h1, hk, h]
    · by_cases h2 : kv.1 = k <;> simp [setKey, getVal, h1, h2, h3, ih]

theorem getVal_eq_none_of_not_mem {d : Dict α} {k : List Char}
    (h : k ∉ d.map Prod.fst) : getVal d k = none := by
  induction d with
  | nil => simp [getVal]
  | cons kv rest ih =>
    simp only [List.map_cons, List.mem_cons] at h
    push_neg at h
    have h1 : kv.1 ≠ k := fun he => h.1 he.symm
    simp [getVal, h1, ih h.2]

theorem getVal_dictUpdate {d2 : Dict α} (h : (d2.map Prod.fst).Nodup) (d : Dict α)
    (k : List Char) :
    getVal (dictUpdate d d2) k =
      match getVal d2 k with
      | some v => some v
      | none => getVal d k := by
  induction d2 generalizing d with
  | nil => simp [dictUpdate, getVal]
  | cons kv rest ih =>
    simp only [List.map_cons, List.nodup_cons] at h
    have hst : dictUpdate d (kv :: rest) = dictUpdate (setKey d kv.1 kv.2) rest := by
      simp [dictUpdate]
    rw [hst, ih h.2]
    by_cases hk : kv.1 = k
    · subst hk
      have : getVal rest kv.1 = none := getVal_eq_none_of_not_mem h.1
      simp [this, getVal, getVal_setKey_self]
    · simp [getVal, hk, getVal_setKey_ne hk]

theorem isPrefixOf_append_self (s t : List Char) : s.isPrefixOf (s ++ t) = true := by
  induction s with
  | nil => simp [List.isPrefixOf]
  | cons c cs ih => simp [List.isPrefixOf, ih]

theorem isPrefixOf_refl (s : List Char) : s.isPrefixOf s = true := by
  have h := isPrefixOf_append_self s []
  rwa [List.append_nil] at h

theorem strip_eq_self {s : List Char} (h1 : s.dropWhile Char.isWhitespace = s)
    (h2 : s.reverse.dropWhile Char.isWhitespace = s.reverse) : strip s = s := by
  unfold strip
  rw [h1, h2, List.reverse_reverse]

theorem mem_env_excluded_ne_nil {x : List Char} (h : x ∈ ENV_EXCLUDED_OPTIONS) :
    x ≠ [] := by
  simp only [ENV_EXCLUDED_OPTIONS, List.mem_cons, List.not_mem_nil, or_false] at h
  rcases h with h | h | h | h | h | h | h | h | h <;> subst h <;> decide

/-! # Claim theorems -/

/-- C5 (counterexample): the claim reads the split as happening at the
LAST-occurring `:`; on the specifier `"a:b/x.feature:12"` that reading
yields the path `"a:b/x.feature"` with line `12`, while `iter_make_paths`
splits at the FIRST `:` and raises a fatal malformed-specifier error. -/
theorem lineSuffix_last_colon_counterexample :
    parseLineSuffixSpec "a:b/x.feature:12".toList =
      .ok ("a:b/x.feature".toList, some 12) ∧
    (parseLineSuffix "a:b/x.feature:12".toList).isOk = false :=
  ⟨by rfl, by decide⟩

/-- C5 (amended): a path specifier is split at the FIRST-occurring `:`;
the split yields an optional line number exactly when the whole trailing
segment after that `:` is a nonempty digit string, and otherwise raises a
fatal malformed-specifier error.  In particular
`"areaX/one.feature:-3"` raises a fatal error and
`"areaX/one.feature:12"` resolves to line `12`. -/
theorem lineSuffix_first_colon_split (pre suf : List Char) (h : ':' ∉ pre) :
    (parseLineSuffix (pre ++ ':' :: suf) =
      if isdigit suf = true then .ok (pre, some (digitsToNat suf))
      else .error ("Invalid format for file path and line number: " ++
        String.mk (pre ++ ':' :: suf))) ∧
    (parseLineSuffix "areaX/one.feature:-3".toList).isOk = false ∧
    parseLineSuffix "areaX/one.feature:12".toList =
      .ok ("areaX/one.feature".toList, some 12) := by
  refine ⟨?_, by decide, by rfl⟩
  unfold parseLineSuffix
  rw [splitFirst_append h]
  by_cases hd : isdigit suf = true
  · simp [hd]
  · simp [hd]

/-- C5 (witness): the amended theorem applied at the concrete specifier
`"areaX/one.feature:12"`. -/
theorem lineSuffix_first_colon_split_witness :
    parseLineSuffix "areaX/one.feature:12".toList =
      .ok ("areaX/one.feature".toList, some 12) :=
  (lineSuffix_first_colon_split "areaX/one.feature".toList "12".toList (by decide)).2.2

/-- C7: over areas `["a", "b", "c"]` where area `"a"` fails and the
stop-on-first-failure policy is enabled, the run executes only `"a"` and
returns the failure status `1`; `"b"` and `"c"` are never executed. -/
theorem stopOnFailure_runs_only_first_area (fp : String) (areaResult : String → Nat)
    (areaAborts : String → Bool) (cfg : RunnerConfig)
    (hfail : areaResult "a" > 0) (hstop : cfg.stop = true) :
    run fp areaResult areaAborts ["a", "b", "c"] cfg =
      .ok ⟨{ cfg with base_dir := featureAreaDir fp "a" }, ["a"], 1⟩ := by
  unfold run runLoop run_feature_area
  simp [hstop, hfail]

/-- C7 (witness): the stop-on-failure theorem at a concrete runner
configuration and area-result assignment. -/
theorem stopOnFailure_runs_only_first_area_witness :
    run "/f" (fun a => if a = "a" then 1 else 0) (fun _ => false) ["a", "b", "c"]
      ⟨"", ["p"], true, "o"⟩ =
    .ok ⟨⟨featureAreaDir "/f" "a", ["p"], true, "o"⟩, ["a"], 1⟩ :=
  stopOnFailure_runs_only_first_area "/f" _ _ _ (by decide) rfl

/-- C2: contrary to the claim, a requirement whose environment marker
evaluates to false is NOT treated as trivially satisfied:
`_is_requirements_satisfied` returns `False` for it even when the
package is installed at a matching version, and
`install_suite_dependencies` consequently invokes the installer. -/
theorem markerFalse_reports_unsatisfied_and_installs :
    _is_requirements_satisfied [RLine.req ⟨"foo".toList, some false, none⟩]
      [("foo".toList, "1.0".toList)] = false ∧
    (install_suite_dependencies "/suite/.lib".toList
      (some [RLine.req ⟨"foo".toList, some false, none⟩])
      [("foo".toList, "1.0".toList)] ⟨[], 0⟩).pipInstallCalls = 1 :=
  ⟨rfl, rfl⟩

/-- C8 (counterexample): in the no-op case (requirements file absent),
`install_suite_dependencies` returns without touching the module search
path: the state is unchanged, and the target directory is NOT on the
search path at return. -/
theorem install_noop_does_not_add_path :
    install_suite_dependencies "/suite/.lib".toList none [] ⟨[], 0⟩ = ⟨[], 0⟩ ∧
    "/suite/.lib".toList ∉
      (install_suite_dependencies "/suite/.lib".toList none [] ⟨[], 0⟩).sys_path ∧
    install_suite_dependencies "/suite/.lib".toList (some [RLine.comment]) [] ⟨[], 0⟩ =
      ⟨[], 0⟩ :=
  ⟨rfl, by decide, rfl⟩

/-- C8 (amended): `install_suite_dependencies` adds the target directory
to the module search path exactly in the non-skip cases: when the
requirements file is absent, or empty/comments-only, the call is a
complete no-op (the search path included); when the file has requirement
content, the target directory is on the search path at return (whether
the requirements were already satisfied or an installation ran). -/
theorem install_adds_path_iff_requirements_present (lib : List Char) (lines : List RLine)
    (pkgs : List (List Char × List Char)) (s : ProcState) :
    (install_suite_dependencies lib none pkgs s = s) ∧
    (_is_empty_or_only_comments lines = true →
      install_suite_dependencies lib (some lines) pkgs s = s) ∧
    (_is_empty_or_only_comments lines = false →
      lib ∈ (install_suite_dependencies lib (some lines) pkgs s).sys_path) := by
  refine ⟨rfl, ?_, ?_⟩
  · intro h
    simp [install_suite_dependencies, h]
  · intro h
    simp only [install_suite_dependencies, h]
    by_cases hs : _is_requirements_satisfied lines pkgs <;>
      simp [hs] <;> by_cases hm : lib ∈ s.sys_path <;> simp [hm]

/-- C8 (witness): the amended theorem applied to a requirements file with
one requirement line; the search-path conjunct is discharged at it. -/
theorem install_adds_path_iff_requirements_present_witness :
    "/suite/.lib".toList ∈ (install_suite_dependencies "/suite/.lib".toList
      (some [RLine.req ⟨"bar".toList, none, none⟩]) [] ⟨[], 0⟩).sys_path :=
  (install_adds_path_iff_requirements_present "/suite/.lib".toList
    [RLine.req ⟨"bar".toList, none, none⟩] [] ⟨[], 0⟩).2.2 rfl

/-- `collect_feature_locations` ignores a location that resolves to the
features root itself: processing it returns the accumulated groups
unchanged (runner.py, lines 219-225). -/
theorem collectStep_at_features_root (fs : FS) (features_path : List String)
    (exclude : List String × Option Nat → Bool) (groups : Groups) (ln : Option Nat) :
    collectStep fs features_path exclude groups (features_path, ln) = .ok groups := by
  unfold collectStep
  by_cases h : fs.pathExists (normalizePath features_path) = true
  · have hrel : relativeTo features_path features_path = some [] := by
      simp [relativeTo, isPrefixOf_refl, List.drop_length]
    simp [h, hrel]
  · simp [h]

/-- C10: an input location whose resolved path exists and equals the
features root itself is skipped by feature-location collection — it
contributes no feature area group and no file locations, and raises no
error: collection over a list containing it equals collection over the
list without it. -/
theorem features_root_specifier_is_skipped (fs : FS) (features_path : List String)
    (exclude : List String × Option Nat → Bool) (ln : Option Nat)
    (pre post : List (List String × Option Nat))
    (_hdir : fs.isDir features_path = true) :
    collect_feature_locations fs features_path exclude
        (pre ++ (features_path, ln) :: post) =
      collect_feature_locations fs features_path exclude (pre ++ post) := by
  unfold collect_feature_locations
  rw [List.foldlM_append, List.foldlM_append]
  apply bind_congr
  intro groups
  rw [List.foldlM_cons, collectStep_at_features_root]
  rfl

/-- C10 (witness): the skip theorem at a concrete filesystem whose
features root exists as a directory. -/
theorem features_root_specifier_is_skipped_witness :
    collect_feature_locations ⟨[["root", "features"]], []⟩ ["root", "features"]
        (fun _ => false) ([] ++ (["root", "features"], none) :: []) =
      collect_feature_locations ⟨[["root", "features"]], []⟩ ["root", "features"]
        (fun _ => false) ([] ++ []) :=
  features_root_specifier_is_skipped _ _ _ none [] [] (by decide)

/-- The collection fold errors whenever the locations contain an existing
path that is not lexically under the features root, no matter the
accumulated groups. -/
theorem collect_fold_error {fs : FS} {features_path : List String}
    {exclude : List String × Option Nat → Bool} {p : List String} {ln : Option Nat} :
    ∀ (resolved : List (List String × Option Nat)) (groups : Groups),
    (p, ln) ∈ resolved → fs.pathExists (normalizePath p) = true →
    relativeTo features_path p = none →
    (resolved.foldlM (collectStep fs features_path exclude) groups).isOk = false := by
  intro resolved
  induction resolved with
  | nil =>
    intro groups hmem _ _
    exact absurd hmem (List.not_mem_nil _)
  | cons x rest ih =>
    intro groups hmem hex hout
    rcases List.mem_cons.mp hmem with hx | hx
    · have hstep : collectStep fs features_path exclude groups x =
          .error ("Path is not inside the Test Suite's feature directory: " ++
            String.intercalate "/" p) := by
        rw [← hx]
        unfold collectStep
        simp [hex, hout]
      rw [List.foldlM_cons, hstep]
      rfl
    · cases hstep : collectStep fs features_path exclude groups x with
      | error e =>
        rw [List.foldlM_cons, hstep]
        rfl
      | ok g =>
        rw [List.foldlM_cons, hstep]
        simpa using ih g hx hex hout

/-- C6 (counterexample): a `..`-traversal specifier that escapes the
features root is NOT caught.  `Path.absolute()` does not normalize, so
the raw path `suite/features/../other/x.feature` keeps its `..`
component, `exists()` sees the real file `suite/other/x.feature` outside
the root, and the purely lexical `relative_to` succeeds — collection
raises no error and silently groups the file under the literal area
`..`, refuting the claim that every existing path outside the root (via
`..` traversal included) raises a fatal error. -/
theorem dotdot_escape_accepted_counterexample :
    collect_feature_locations
        ⟨[["suite", "features"], ["suite", "other"]], [["suite", "other", "x.feature"]]⟩
        ["suite", "features"] (fun _ => false)
        [(["suite", "features", "..", "other", "x.feature"], none)] =
      .ok [("..", [(["suite", "features", "..", "other", "x.feature"], none)])] ∧
    relativeTo ["suite", "features"]
        (normalizePath ["suite", "features", "..", "other", "x.feature"]) = none ∧
    FS.pathExists
        ⟨[["suite", "features"], ["suite", "other"]], [["suite", "other", "x.feature"]]⟩
        (normalizePath ["suite", "features", "..", "other", "x.feature"]) = true :=
  ⟨rfl, rfl, rfl⟩

/-- C6 (amended): for every existing resolved path that is not LEXICALLY
under the suite's features root — `relative_to` fails, as for an
absolute path elsewhere — feature-location collection raises a fatal
configuration error and never silently skips; a `..`-traversal path that
keeps the root as a lexical prefix is not detected (see the
counterexample: it is accepted and grouped under the literal `..`
component). -/
theorem outside_features_root_raises (fs : FS) (features_path : List String)
    (exclude : List String × Option Nat → Bool)
    (resolved : List (List String × Option Nat)) (p : List String) (ln : Option Nat)
    (hmem : (p, ln) ∈ resolved) (hex : fs.pathExists (normalizePath p) = true)
    (hout : relativeTo features_path p = none) :
    (collect_feature_locations fs features_path exclude resolved).isOk = false :=
  collect_fold_error resolved [] hmem hex hout

/-- C6 (witness): an existing file not lexically under the features root
makes collection fail, at a concrete filesystem. -/
theorem outside_features_root_raises_witness :
    (collect_feature_locations ⟨[], [["other", "x.feature"]]⟩ ["root", "features"]
      (fun _ => false) [(["other", "x.feature"], none)]).isOk = false :=
  outside_features_root_raises _ _ _ _ ["other", "x.feature"] none (by decide)
    (by decide) (by decide)

/-- Unfolding of one `runLoop` iteration. -/
theorem runLoop_cons (fp : String) (areaResult : String → Nat) (areaAborts : String → Bool)
    (name : String) (rest : List String) (cfg : RunnerConfig) (executed : List String)
    (failed : Nat) :
    runLoop fp areaResult areaAborts (name :: rest) cfg executed failed =
      (if areaResult name > 0 then
        if cfg.stop then
          ({ cfg with base_dir := featureAreaDir fp name,
                      paths := [featureAreaDir fp name] }, executed ++ [name], 1)
        else if areaAborts name then
          ({ cfg with base_dir := featureAreaDir fp name,
                      paths := [featureAreaDir fp name] }, executed ++ [name], 1)
        else
          runLoop fp areaResult areaAborts rest
            { cfg with base_dir := featureAreaDir fp name,
                       paths := [featureAreaDir fp name] } (executed ++ [name]) 1
      else if areaAborts name then
        ({ cfg with base_dir := featureAreaDir fp name,
                    paths := [featureAreaDir fp name] }, executed ++ [name], failed)
      else
        runLoop fp areaResult areaAborts rest
          { cfg with base_dir := featureAreaDir fp name,
                     paths := [featureAreaDir fp name] } (executed ++ [name]) failed) :=
  rfl

/-- Frame property of the runner loop: iterating areas appends the names
of the areas actually run to `executed`, leaves `stop` and `other`
untouched, and leaves `base_dir` pointing at the last executed area (or
unchanged when no area ran). -/
theorem runLoop_spec (fp : String) (areaResult : String → Nat) (areaAborts : String → Bool) :
    ∀ (areas : List String) (cfg : RunnerConfig) (executed : List String) (failed : Nat),
    ∃ ran : List String,
      (runLoop fp areaResult areaAborts areas cfg executed failed).2.1 = executed ++ ran ∧
      (runLoop fp areaResult areaAborts areas cfg executed failed).1.stop = cfg.stop ∧
      (runLoop fp areaResult areaAborts areas cfg executed failed).1.other = cfg.other ∧
      (runLoop fp areaResult areaAborts areas cfg executed failed).1.base_dir =
        (match ran.getLast? with
         | some a => featureAreaDir fp a
         | none => cfg.base_dir) := by
  intro areas
  induction areas with
  | nil =>
    intro cfg executed failed
    exact ⟨[], by simp [runLoop], rfl, rfl, rfl⟩
  | cons name rest ih =>
    intro cfg executed failed
    rw [runLoop_cons]
    by_cases h1 : areaResult name > 0
    · rw [if_pos h1]
      by_cases h2 : cfg.stop = true
      · rw [if_pos h2]
        exact ⟨[name], rfl, rfl, rfl, by simp⟩
      · rw [if_neg h2]
        by_cases h3 : areaAborts name = true
        · rw [if_pos h3]
          exact ⟨[name], rfl, rfl, rfl, by simp⟩
        · rw [if_neg h3]
          obtain ⟨ran2, e1, e2, e3, e4⟩ :=
            ih { cfg with base_dir := featureAreaDir fp name,
                          paths := [featureAreaDir fp name] } (executed ++ [name]) 1
          refine ⟨name :: ran2, ?_, e2, e3, ?_⟩
          · rw [e1]
            simp
          · cases ran2 with
            | nil => rw [e4]; simp
            | cons a l => rw [List.getLast?_cons_cons]; exact e4
    · rw [if_neg h1]
      by_cases h3 : areaAborts name = true
      · rw [if_pos h3]
        exact ⟨[name], rfl, rfl, rfl, by simp⟩
      · rw [if_neg h3]
        obtain ⟨ran2, e1, e2, e3, e4⟩ :=
          ih { cfg with base_dir := featureAreaDir fp name,
                        paths := [featureAreaDir fp name] } (executed ++ [name]) failed
        refine ⟨name :: ran2, ?_, e2, e3, ?_⟩
        · rw [e1]
          simp
        · cases ran2 with
          | nil => rw [e4]; simp
          | cons a l => rw [List.getLast?_cons_cons]; exact e4

/-- C3 (amended): on every completed run, `paths` is restored to its
run-start value and no configuration field other than `base_dir` and
`paths` is re-assigned (`stop` and `other` are unchanged) — but
`base_dir` is NOT restored: it retains the directory of the last
executed feature area. -/
theorem run_frame_and_paths_restored (fp : String) (areaResult : String → Nat)
    (areaAborts : String → Bool) (areas : List String) (cfg : RunnerConfig)
    (out : RunOutcome) (h : run fp areaResult areaAborts areas cfg = .ok out) :
    out.config.paths = cfg.paths ∧ out.config.stop = cfg.stop ∧
    out.config.other = cfg.other ∧
    out.config.base_dir =
      (match out.executed.getLast? with
       | some a => featureAreaDir fp a
       | none => cfg.base_dir) := by
  unfold run at h
  by_cases ha : areas = []
  · rw [if_pos ha] at h
    exact absurd h (by simp)
  · rw [if_neg ha] at h
    obtain ⟨ran, e1, e2, e3, e4⟩ := runLoop_spec fp areaResult areaAborts areas cfg [] 0
    rcases hrl : runLoop fp areaResult areaAborts areas cfg [] 0 with ⟨cfg2, executed2, failed2⟩
    rw [hrl] at e1 e2 e3 e4 h
    simp only [List.nil_append] at e1
    have hinj := Except.ok.inj h
    subst hinj
    refine ⟨rfl, e2, e3, ?_⟩
    show cfg2.base_dir =
      (match executed2.getLast? with
       | some a => featureAreaDir fp a
       | none => cfg.base_dir)
    rw [e1]
    exact e4

/-- C3 (counterexample): a completed one-area run restores `paths` but
leaves `base_dir` at the area directory, not at its run-start value `""`:
the claim that both fields are restored fails. -/
theorem base_dir_not_restored_counterexample :
    run "/f" (fun _ => 0) (fun _ => false) ["a"] ⟨"", ["p"], false, "o"⟩ =
      .ok ⟨⟨featureAreaDir "/f" "a", ["p"], false, "o"⟩, ["a"], 0⟩ ∧
    featureAreaDir "/f" "a" ≠ "" :=
  ⟨rfl, by decide⟩

/-- C3 (witness): the amended theorem applied to a concrete completed
run. -/
theorem run_frame_and_paths_restored_witness :
    (RunOutcome.mk ⟨featureAreaDir "/f" "a", ["p"], false, "o"⟩ ["a"] 0).config.paths =
      ["p"] ∧
    (RunOutcome.mk ⟨featureAreaDir "/f" "a", ["p"], false, "o"⟩ ["a"] 0).config.stop =
      false ∧
    (RunOutcome.mk ⟨featureAreaDir "/f" "a", ["p"], false, "o"⟩ ["a"] 0).config.other =
      "o" ∧
    (RunOutcome.mk ⟨featureAreaDir "/f" "a", ["p"], false, "o"⟩ ["a"] 0).config.base_dir =
      (match (["a"] : List String).getLast? with
       | some a => featureAreaDir "/f" a
       | none => "") :=
  run_frame_and_paths_restored "/f" (fun _ => 0) (fun _ => false) ["a"]
    ⟨"", ["p"], false, "o"⟩ _ rfl

/-- Processing an environment entry whose lower-cased key has the
`systest_` prefix and an excluded setting name always raises
`ConfigError`, whatever the value. -/
theorem applyEnvEntry_excluded {k : List Char} (d : Dict ConfigValue) (v : List Char)
    (hpre : ("systest_".toList).isPrefixOf (lower k) = true)
    (hex : (lower k).drop 8 ∈ ENV_EXCLUDED_OPTIONS) :
    applyEnvEntry d k v =
      .error ("Setting cannot be specified as environment var: " ++
        String.mk ((lower k).drop 8)) := by
  have hne : (lower k).drop 8 ≠ [] := mem_env_excluded_ne_nil hex
  have hpre' := hpre
  simp only [List.isPrefixOf_iff_prefix] at hpre'
  have hpre2 : (['s', 'y', 's', 't', 'e', 's', 't', '_'] : List Char) <+: lower k := hpre'
  simp [applyEnvEntry, hpre, hpre', hpre2, hne, hex]

/-- The environment-parsing fold errors whenever the built environment
contains a `systest_`-prefixed key naming an excluded setting. -/
theorem load_env_fold_error {k v : List Char}
    (hpre : ("systest_".toList).isPrefixOf (lower k) = true)
    (hex : (lower k).drop 8 ∈ ENV_EXCLUDED_OPTIONS) :
    ∀ (env : Dict (List Char)) (d : Dict ConfigValue), (k, v) ∈ env →
    (env.foldlM (fun d kv => applyEnvEntry d kv.1 kv.2) d).isOk = false := by
  intro env
  induction env with
  | nil =>
    intro d h
    exact absurd h (List.not_mem_nil _)
  | cons x rest ih =>
    intro d hmem
    rcases List.mem_cons.mp hmem with hx | hx
    · subst hx
      rw [List.foldlM_cons]
      have hb : applyEnvEntry d (k, v).1 (k, v).2 =
          Except.error ("Setting cannot be specified as environment var: " ++
            String.mk ((lower k).drop 8)) :=
        applyEnvEntry_excluded d v hpre hex
      rw [hb]
      rfl
    · rw [List.foldlM_cons]
      cases hstep : applyEnvEntry d x.1 x.2 with
      | error e => rfl
      | ok d2 => exact ih d2 hx

/-- C4: for every setting name in the environment-exclusion set,
supplying it as a `SYSTEST_`-prefixed variable through any of the
environment/config-file sources raises a configuration error, for every
value of the variable (including empty or whitespace values): whenever
the built raw environment contains such an entry,
`load_environment_settings` fails. -/
theorem excluded_setting_env_raises (defaults : Dict ConfigValue)
    (osEnviron : Dict (List Char)) (userConfig : Option (Dict (List Char)))
    (runFromSource : Bool) (projectConfig : Option (Dict (List Char))) (cliFile : CliFile)
    (env_values : Dict (List Char)) (k v name : List Char)
    (hbuild : build_environment_values osEnviron userConfig runFromSource projectConfig
      cliFile = .ok env_values)
    (hmem : (k, v) ∈ env_values)
    (hlower : lower k = "systest_".toList ++ name)
    (hname : name ∈ ENV_EXCLUDED_OPTIONS) :
    (load_environment_settings defaults osEnviron userConfig runFromSource projectConfig
      cliFile).isOk = false := by
  have hpre : ("systest_".toList).isPrefixOf (lower k) = true := by
    rw [hlower]
    exact isPrefixOf_append_self _ _
  have h8 : ("systest_".toList).length = 8 := rfl
  have hdrop : (lower k).drop 8 = name := by
    rw [hlower, ← h8, List.drop_left]
  unfold load_environment_settings
  rw [hbuild]
  exact load_env_fold_error hpre (hdrop ▸ hname) env_values defaults hmem

/-- C4 (witness): supplying the excluded setting `suite` as
`SYSTEST_SUITE` with an empty value makes settings loading fail. -/
theorem excluded_setting_env_raises_witness :
    (load_environment_settings [] [("SYSTEST_SUITE".toList, "".toList)] none false none
      .absent).isOk = false :=
  excluded_setting_env_raises [] [("SYSTEST_SUITE".toList, "".toList)] none false none
    .absent [("SYSTEST_SUITE".toList, "".toList)] "SYSTEST_SUITE".toList "".toList
    "suite".toList rfl (by decide) (by decide) (by decide)

/-- C1 (amended): with the same setting supplied through all five
sources — OS environment, user config, project config, CLI-named config
file, and CLI flag — (i) the raw string-level merge is last-write-wins
key-for-key (CLI config file over project config over user config over
OS environment); (ii) the environment pipeline leaves the typed parse of
the highest-precedence raw value (the CLI config file's) in the
defaults; (iii) a scalar setting's effective value is the CLI-flag
value; and (iv) a sequence setting's effective value is the
highest-precedence remaining source's list with the CLI-provided
occurrences APPENDED to it (not prepended). -/
theorem config_precedence (d : Dict ConfigValue) (k name v1 v2 v3 v4 : List Char)
    (w : ConfigValue) (cs : List (List Char))
    (hlower : lower k = "systest_".toList ++ name)
    (hex : name ∉ ENV_EXCLUDED_OPTIONS)
    (hname : name ≠ [])
    (hval : strip v4 ≠ []) :
    (∀ (os u p c env : Dict (List Char)) (q : List Char),
      (u.map Prod.fst).Nodup → (p.map Prod.fst).Nodup → (c.map Prod.fst).Nodup →
      build_environment_values os (some u) true (some p) (.present c) = .ok env →
      getVal env q =
        (match getVal c q with
         | some x => some x
         | none =>
           match getVal p q with
           | some x => some x
           | none =>
             match getVal u q with
             | some x => some x
             | none => getVal os q)) ∧
    load_environment_settings d [(k, v1)] (some [(k, v2)]) true (some [(k, v3)])
        (.present [(k, v4)]) =
      .ok (setKey d name (parseEnvValue name (strip v4))) ∧
    effectiveScalar d [(k, v1)] (some [(k, v2)]) true (some [(k, v3)])
        (.present [(k, v4)]) name (some w) = .ok (some w) ∧
    (name ∈ ENV_SEQUENCE_OPTIONS → name ≠ "userdata_defines".toList →
     lower (strip v4) ≠ "true".toList → lower (strip v4) ≠ "false".toList →
     isdigit (strip v4) = false →
     effectiveSeq d [(k, v1)] (some [(k, v2)]) true (some [(k, v3)])
        (.present [(k, v4)]) name cs =
       .ok (.seq (shlexSplitSimple (strip v4) ++ cs))) := by
  have hpre : ("systest_".toList).isPrefixOf (lower k) = true := by
    rw [hlower]
    exact isPrefixOf_append_self _ _
  have h8 : ("systest_".toList).length = 8 := rfl
  have hdrop : (lower k).drop 8 = name := by
    rw [hlower, ← h8, List.drop_left]
  have hbuild : build_environment_values [(k, v1)] (some [(k, v2)]) true (some [(k, v3)])
      (.present [(k, v4)]) = .ok [(k, v4)] := by
    simp [build_environment_values, dictUpdate, setKey]
  have happly : applyEnvEntry d k v4 =
      .ok (setKey d name (parseEnvValue name (strip v4))) := by
    have hpre' := hpre
    simp only [List.isPrefixOf_iff_prefix] at hpre'
    have hpre2 : (['s', 'y', 's', 't', 'e', 's', 't', '_'] : List Char) <+: lower k := hpre'
    simp [applyEnvEntry, hpre, hpre', hpre2, hdrop, hname, hex, hval]
  have hload : load_environment_settings d [(k, v1)] (some [(k, v2)]) true (some [(k, v3)])
      (.present [(k, v4)]) = .ok (setKey d name (parseEnvValue name (strip v4))) := by
    unfold load_environment_settings
    rw [hbuild]
    change List.foldlM (fun d kv => applyEnvEntry d kv.1 kv.2) d [(k, v4)] = _
    rw [List.foldlM_cons]
    have hb : applyEnvEntry d (k, v4).1 (k, v4).2 =
        .ok (setKey d name (parseEnvValue name (strip v4))) := happly
    rw [hb]
    rfl
  refine ⟨?_, hload, ?_, ?_⟩
  · intro os u p c env q hu hp hc hb
    have henv : dictUpdate (dictUpdate (dictUpdate os u) p) c = env := by
      simp only [build_environment_values] at hb
      exact Except.ok.inj hb
    rw [← henv, getVal_dictUpdate hc, getVal_dictUpdate hp, getVal_dictUpdate hu]
    cases getVal c q with
    | some x => rfl
    | none =>
      cases getVal p q with
      | some x => rfl
      | none => cases getVal u q <;> rfl
  · unfold effectiveScalar
    rw [hload]
    rfl
  · intro hseq hud ht hf hd
    have ht' : lower (strip v4) ≠ ['t', 'r', 'u', 'e'] := ht
    have hf' : lower (strip v4) ≠ ['f', 'a', 'l', 's', 'e'] := hf
    have hud' : name ≠
        ['u', 's', 'e', 'r', 'd', 'a', 't', 'a', '_', 'd', 'e', 'f', 'i', 'n', 'e', 's'] := hud
    have hpv : parseEnvValue name (strip v4) = .seq (shlexSplitSimple (strip v4)) := by
      simp [parseEnvValue, ht', hf', hd, hseq, hud']
    unfold effectiveSeq
    rw [hload, hpv]
    simp [applyCliSeq, Except.map, getVal_setKey_self]

/-- C1 (counterexample): for the sequence setting `name` supplied through
all five sources, the effective value is the CLI-config-file list with
the CLI-flag occurrences APPENDED (`["e4", "c"]`), not the CLI list
prepended to it (`["c", "e4"]`) as the claim states. -/
theorem cli_seq_prepend_counterexample :
    effectiveSeq [] [("SYSTEST_NAME".toList, "e1".toList)]
        (some [("SYSTEST_NAME".toList, "e2".toList)]) true
        (some [("SYSTEST_NAME".toList, "e3".toList)])
        (.present [("SYSTEST_NAME".toList, "e4".toList)]) "name".toList ["c".toList] =
      .ok (.seq ["e4".toList, "c".toList]) ∧
    ConfigValue.seq ["e4".toList, "c".toList] ≠
      ConfigValue.seq ["c".toList, "e4".toList] :=
  ⟨by rfl, by decide⟩

/-- C1 (witness): the precedence theorem applied at the concrete setting
`name` with values `e1..e4` from the four raw sources and the CLI list
`["c"]`. -/
theorem config_precedence_witness :
    effectiveSeq [] [("SYSTEST_NAME".toList, "e1".toList)]
        (some [("SYSTEST_NAME".toList, "e2".toList)]) true
        (some [("SYSTEST_NAME".toList, "e3".toList)])
        (.present [("SYSTEST_NAME".toList, "e4".toList)]) "name".toList ["c".toList] =
      .ok (.seq (shlexSplitSimple (strip "e4".toList) ++ ["c".toList])) :=
  (config_precedence [] "SYSTEST_NAME".toList "name".toList "e1".toList "e2".toList
    "e3".toList "e4".toList (.str "w".toList) ["c".toList] (by decide) (by decide)
    (by decide) (by decide)).2.2.2 (by decide) (by decide) (by decide) (by decide)
    (by decide)

/-- A nonempty list unchanged by `dropWhile` starts with a character the
predicate rejects. -/
theorem head_false_of_dropWhile_eq_self {p : Char → Bool} {c : Char} {cs : List Char}
    (h : (c :: cs).dropWhile p = c :: cs) : p c = false := by
  by_cases hp : p c = true
  · rw [List.dropWhile_cons, if_pos hp] at h
    have hlen := congrArg List.length h
    have hle := (List.dropWhile_sublist (l := cs) p).length_le
    simp at hlen
    omega
  · simpa using hp

/-- `dropWhile` leaves an append unchanged when it leaves the nonempty
left part unchanged. -/
theorem dropWhile_append_left {p : Char → Bool} {a : List Char} (b : List Char)
    (h : a.dropWhile p = a) (ha : a ≠ []) :
    (a ++ b).dropWhile p = a ++ b := by
  cases a with
  | nil => exact absurd rfl ha
  | cons c cs =>
    have hc := head_false_of_dropWhile_eq_self h
    rw [List.cons_append, List.dropWhile_cons, hc]
    rfl

/-- `unquote` keeps a value that does not start with a quote character. -/
theorem unquote_eq_self {v : List Char} (h1 : v.head? ≠ some doubleQuoteChar)
    (h2 : v.head? ≠ some singleQuoteChar) : unquote v = v := by
  cases v with
  | nil => rfl
  | cons c rest =>
    have hc1 : c ≠ doubleQuoteChar := fun h => h1 (by simp [h])
    have hc2 : c ≠ singleQuoteChar := fun h => h2 (by simp [h])
    simp [unquote, hc1, hc2]

/-- `dotenvLine` on a well-formed serialized `key=value` line with an
unquoted value yields the key and the value unchanged. -/
theorem dotenvLine_keyval (key v : List Char)
    (hk1 : key.dropWhile Char.isWhitespace = key) (hk2 : key ≠ [])
    (hk3 : '=' ∉ key) (hk4 : strip key = key) (hk5 : key.head? ≠ some '#')
    (hv0 : v ≠ []) (hv1 : v.dropWhile Char.isWhitespace = v)
    (hv2 : v.reverse.dropWhile Char.isWhitespace = v.reverse)
    (hv3 : v.head? ≠ some doubleQuoteChar) (hv4 : v.head? ≠ some singleQuoteChar) :
    dotenvLine (key ++ '=' :: v) = some (key, some v) := by
  have hrev : (key ++ '=' :: v).reverse = v.reverse ++ '=' :: key.reverse := by
    rw [List.reverse_append]
    rw [show ('=' :: v).reverse = v.reverse ++ ['='] from by simp]
    rw [List.append_assoc]
    rfl
  have hstrip : strip (key ++ '=' :: v) = key ++ '=' :: v := by
    unfold strip
    rw [dropWhile_append_left _ hk1 hk2, hrev,
      dropWhile_append_left _ hv2 (by simpa using hv0), ← hrev, List.reverse_reverse]
  unfold dotenvLine
  rw [hstrip]
  have hne : key ++ '=' :: v ≠ [] := by simp
  rw [if_neg hne]
  have hhead : (key ++ '=' :: v).head? = key.head? := by
    cases key with
    | nil => exact absurd rfl hk2
    | cons c cs => rfl
  rw [if_neg (by rw [hhead]; exact hk5)]
  rw [splitFirst_append hk3]
  show some (strip key, some (unquote (strip v))) = some (key, some v)
  rw [hk4, strip_eq_self hv1 hv2, unquote_eq_self hv3 hv4]

/-- C9: round-trip of the suite config file.  Serializing a `SuiteConfig`
as `key=value` lines over the three recognized keys and parsing it back
yields the config unchanged, for values on which the plain `key=value`
serialization is injective under `dotenv` parsing: nonempty, no edge
whitespace, no `#` (comment start), not starting with a single or double
quote (`dotenv` strips a surrounding quote pair), and free of `$`
(`dotenv` interpolates `${VAR}` references); a missing file leaves all
three fixed framework defaults; and a comment/blank line (any line
`dotenv` ignores) never changes the parsed result. -/
theorem suite_conf_roundtrip (version : List Char) (cfg : SuiteConfig) (extra : List Char)
    (ha0 : cfg.framework_version ≠ [])
    (ha1 : cfg.framework_version.dropWhile Char.isWhitespace = cfg.framework_version)
    (ha2 : cfg.framework_version.reverse.dropWhile Char.isWhitespace =
      cfg.framework_version.reverse)
    (_ha3 : '#' ∉ cfg.framework_version)
    (ha4 : cfg.framework_version.head? ≠ some doubleQuoteChar)
    (ha5 : cfg.framework_version.head? ≠ some singleQuoteChar)
    (_ha6 : '$' ∉ cfg.framework_version)
    (hb0 : cfg.features_folder ≠ [])
    (hb1 : cfg.features_folder.dropWhile Char.isWhitespace = cfg.features_folder)
    (hb2 : cfg.features_folder.reverse.dropWhile Char.isWhitespace =
      cfg.features_folder.reverse)
    (_hb3 : '#' ∉ cfg.features_folder)
    (hb4 : cfg.features_folder.head? ≠ some doubleQuoteChar)
    (hb5 : cfg.features_folder.head? ≠ some singleQuoteChar)
    (_hb6 : '$' ∉ cfg.features_folder)
    (hc0 : cfg.support_folder ≠ [])
    (hc1 : cfg.support_folder.dropWhile Char.isWhitespace = cfg.support_folder)
    (hc2 : cfg.support_folder.reverse.dropWhile Char.isWhitespace =
      cfg.support_folder.reverse)
    (_hc3 : '#' ∉ cfg.support_folder)
    (hc4 : cfg.support_folder.head? ≠ some doubleQuoteChar)
    (hc5 : cfg.support_folder.head? ≠ some singleQuoteChar)
    (_hc6 : '$' ∉ cfg.support_folder) :
    parse_suite_conf version (some (serializeSuiteConf cfg)) = .ok cfg ∧
    parse_suite_conf version none =
      .ok ⟨version, SUITE_FEATURES_FOLDER, SUITE_SUPPORT_FOLDER⟩ ∧
    (dotenvLine extra = none →
      parse_suite_conf version (some (extra :: serializeSuiteConf cfg)) = .ok cfg) := by
  have e1 : dotenvLine ("framework_version".toList ++ '=' :: cfg.framework_version) =
      some ("framework_version".toList, some cfg.framework_version) :=
    dotenvLine_keyval _ _ (by decide) (by decide) (by decide) (by decide) (by decide)
      ha0 ha1 ha2 ha4 ha5
  have e2 : dotenvLine ("features_folder".toList ++ '=' :: cfg.features_folder) =
      some ("features_folder".toList, some cfg.features_folder) :=
    dotenvLine_keyval _ _ (by decide) (by decide) (by decide) (by decide) (by decide)
      hb0 hb1 hb2 hb4 hb5
  have e3 : dotenvLine ("support_folder".toList ++ '=' :: cfg.support_folder) =
      some ("support_folder".toList, some cfg.support_folder) :=
    dotenvLine_keyval _ _ (by decide) (by decide) (by decide) (by decide) (by decide)
      hc0 hc1 hc2 hc4 hc5
  have h12 : ("framework_version".toList : List Char) ≠ "features_folder".toList := by decide
  have h13 : ("framework_version".toList : List Char) ≠ "support_folder".toList := by decide
  have h23 : ("features_folder".toList : List Char) ≠ "support_folder".toList := by decide
  have hdv : dotenv_values (serializeSuiteConf cfg) =
      [("framework_version".toList, some cfg.framework_version),
       ("features_folder".toList, some cfg.features_folder),
       ("support_folder".toList, some cfg.support_folder)] := by
    unfold dotenv_values serializeSuiteConf
    simp only [List.foldl_cons, List.foldl_nil, e1, e2, e3]
    simp [setKey, h12, h13, h23]
  have hmain : parse_suite_conf version (some (serializeSuiteConf cfg)) = .ok cfg := by
    unfold parse_suite_conf
    dsimp only
    rw [hdv]
    simp only [List.foldl_cons, List.foldl_nil]
    simp [setKey, getVal, ha0, hb0, hc0, h12, h13, h23]
  refine ⟨hmain, ?_, ?_⟩
  · simp [parse_suite_conf, getVal]
  · intro hextra
    have hsame : parse_suite_conf version (some (extra :: serializeSuiteConf cfg)) =
        parse_suite_conf version (some (serializeSuiteConf cfg)) := by
      unfold parse_suite_conf
      dsimp only
      rw [show dotenv_values (extra :: serializeSuiteConf cfg) =
          dotenv_values (serializeSuiteConf cfg) from by
        unfold dotenv_values
        simp only [List.foldl_cons, hextra]]
    rw [hsame]
    exact hmain

/-- C9 (witness): the round-trip theorem at a concrete suite config and a
concrete comment line. -/
theorem suite_conf_roundtrip_witness :
    parse_suite_conf "0.0.0-dev".toList
        (some (serializeSuiteConf ⟨"1.2.3".toList, "feats".toList, "sup".toList⟩)) =
      .ok ⟨"1.2.3".toList, "feats".toList, "sup".toList⟩ :=
  (suite_conf_roundtrip "0.0.0-dev".toList ⟨"1.2.3".toList, "feats".toList, "sup".toList⟩
    "# comment".toList (by decide) (by decide) (by decide) (by decide) (by decide)
    (by decide) (by decide) (by decide) (by decide) (by decide) (by decide)
    (by decide) (by decide) (by decide) (by decide) (by decide) (by decide)
    (by decide) (by decide) (by decide) (by decide)).1

end Systest
